import Mathlib

/-!
Verification of the command-dispatch core of the hbcdump tool
(src/tools/hbcdump/hbcdump.cpp).

The dispatcher, flag extractor, help registry and session loop are
embedded shallowly: external services (profile analyzer, bytecode
disassembler, structured printer) are opaque; each invocation is
recorded as an event.  Output writes are recorded as events carrying
the exact string written.  The out-of-bounds vector access that the
`string`/`filename` handlers can perform is modelled by `Except.error`.
-/

set_option autoImplicit false

/-- Modelled from the spec: the disassembly option set is "a bitmask-like
set of independent boolean toggles (include-source, include-function-ids,
pretty-print, include-virtual-offsets)" owned by the external
`BytecodeDisassembler` (its enum lives outside this file).  Bit-for-bit
equality of option sets is structure equality. -/
structure DisassemblyOptions where
  pretty : Bool
  includeSource : Bool
  includeFunctionIds : Bool
  includeVirtualOffsets : Bool
deriving DecidableEq, Repr

/-- The empty option set, `DisassemblyOptions::None`. -/
def DisassemblyOptions.None : DisassemblyOptions :=
  ⟨false, false, false, false⟩

/-- The single-bit set `DisassemblyOptions::Pretty`. -/
def DisassemblyOptions.Pretty : DisassemblyOptions :=
  ⟨true, false, false, false⟩

/-- The single-bit set `DisassemblyOptions::IncludeSource`. -/
def DisassemblyOptions.IncludeSource : DisassemblyOptions :=
  ⟨false, true, false, false⟩

/-- The single-bit set `DisassemblyOptions::IncludeFunctionIds`. -/
def DisassemblyOptions.IncludeFunctionIds : DisassemblyOptions :=
  ⟨false, false, true, false⟩

/-- The single-bit set `DisassemblyOptions::IncludeVirtualOffsets`. -/
def DisassemblyOptions.IncludeVirtualOffsets : DisassemblyOptions :=
  ⟨false, false, false, true⟩

/-- Bitwise union of option sets (the C++ `operator|`). -/
def DisassemblyOptions.or (a b : DisassemblyOptions) : DisassemblyOptions :=
  ⟨a.pretty || b.pretty,
   a.includeSource || b.includeSource,
   a.includeFunctionIds || b.includeFunctionIds,
   a.includeVirtualOffsets || b.includeVirtualOffsets⟩

/-- One invocation of an external service (analyzer, disassembler or
structured printer), with the arguments the dispatcher passes.  The
`json` flag records the mode the per-command `StructuredPrinter` was
created with; the disassembler calls record the option set in effect
at call time. -/
inductive ServiceCall where
  | dumpFunctionStats
  | dumpFunctionBasicBlockStat (funcId : Nat)
  | dumpInstructionStats
  | disassemble (options : DisassemblyOptions)
  | disassembleFunction (funcId : Nat) (options : DisassemblyOptions)
  | dumpString (stringId : Nat)
  | dumpFileName (filenameId : Nat)
  | dumpAllFunctionOffsets (json : Bool)
  | dumpFunctionOffsets (funcId : Nat) (json : Bool)
  | dumpIO
  | dumpSummary
  | dumpBasicBlockStats
  | getFunctionFromVirtualOffset (virtualOffset : Nat)
  | dumpEpilogue
deriving DecidableEq, Repr

/-- An observable step of one command: a write to the session output
stream `os` (`out`), a write made by `printHelp` to `llvm::outs()`
(`help`), or an external service invocation (`call`). -/
inductive Event where
  | out (s : String)
  | help (s : String)
  | call (c : ServiceCall)
deriving DecidableEq, Repr

/-- The tokenizer, after `llvm::StringRef::split(commandTokens, ' ')`
with its defaults (`MaxSplit = -1`, `KeepEmpty = true`): cut at every
single space, keeping empty pieces, and always push the final piece,
so the result is never the empty list. -/
def splitChars (sep : Char) : List Char → List (List Char)
  | [] => [[]]
  | c :: cs =>
    let rest := splitChars sep cs
    if c = sep then [] :: rest
    else
      match rest with
      | [] => [[c]]
      | r :: rs => (c :: r) :: rs

/-- Split a command line into tokens at single spaces, keeping empties. -/
def splitTokens (line : String) : List String :=
  (splitChars ' ' line.toList).map (fun l => String.mk l)

/-- Numeric value of a character as `llvm::StringRef::getAsInteger`
sees it: decimal digits, then lowercase and uppercase letters from 10. -/
def digitValue (c : Char) : Option Nat :=
  if 'a' ≤ c && c ≤ 'z' then some (c.toNat - 'a'.toNat + 10)
  else if 'A' ≤ c && c ≤ 'Z' then some (c.toNat - 'A'.toNat + 10)
  else if '0' ≤ c && c ≤ '9' then some (c.toNat - '0'.toNat)
  else none

/-- Radix auto-detection of `llvm::getAsInteger(0, ...)`: a leading
`0x`/`0X` selects 16, `0b`/`0B` selects 2, `0o` selects 8, a leading
zero followed by a digit selects 8, anything else selects 10.  Returns
the radix and the remaining characters. -/
def autoSenseRadix : List Char → Nat × List Char
  | [] => (10, [])
  | '0' :: 'x' :: rest => (16, rest)
  | '0' :: 'X' :: rest => (16, rest)
  | '0' :: 'b' :: rest => (2, rest)
  | '0' :: 'B' :: rest => (2, rest)
  | '0' :: 'o' :: rest => (8, rest)
  | '0' :: c :: rest =>
    if c.isDigit then (8, c :: rest) else (10, '0' :: c :: rest)
  | cs => (10, cs)

/-- Accumulate digits in the given radix; fail on the first character
that is not a digit below the radix (the whole token must be consumed). -/
def parseDigitsLoop (radix : Nat) : List Char → Nat → Option Nat
  | [], acc => some acc
  | c :: cs, acc =>
    match digitValue c with
    | none => none
    | some d => if d < radix then parseDigitsLoop radix cs (acc * radix + d) else none

/-- Model of `llvm::StringRef::getAsInteger(0, u)` for a `uint32_t`
destination: auto-sense the radix, require at least one digit, require
the whole string consumed, and require the value to fit in 32 bits.
`none` is the C++ `true` (failure) return. -/
def getAsInteger (s : String) : Option Nat :=
  let p := autoSenseRadix s.toList
  match p.2 with
  | [] => none
  | cs =>
    match parseDigitsLoop p.1 cs 0 with
    | none => none
    | some v => if v < 4294967296 then some v else none

/-- `findAndRemoveOne`: find the first instance of a value in a
container and remove it; the Bool is the C++ return value and the list
is the container after the call. -/
def findAndRemoveOne (haystack : List String) (needle : String) : Bool × List String :=
  match haystack with
  | [] => (false, [])
  | x :: xs =>
    if x = needle then (true, xs)
    else
      let r := findAndRemoveOne xs needle
      (r.1, x :: r.2)

/-- Usage text registered for the `function` key. -/
def functionHelpText : String :=
  "\x27function\x27: Compute the runtime instruction frequency for each function and display in desceding order.Each function name is displayed together with its source code line number .\n\x27function <FUNC_ID>\x27: Dump basic block stats for function with id <FUNC_ID>.\n\nUSAGE: function <FUNC_ID>\n       func <FUNC_ID>\n"

/-- Usage text registered for the `instruction` key. -/
def instructionHelpText : String :=
  "Computes the runtime instruction frequency for each instructionand displays it in descending order.\n\nUSAGE: instruction\n       inst\n"

/-- Usage text registered for the `disassemble` key. -/
def disassembleHelpText : String :=
  "\x27disassemble\x27: Display bytecode disassembled output of whole binary.\n\x27disassemble <FUNC_ID>\x27: Display bytecode disassembled output of function with id <FUNC_ID>.\nAdd the \x27-offsets\x27 flag to show virtual offsets for all instructions.\n\nUSAGE: disassemble <FUNC_ID> [-offsets]\n       dis <FUNC_ID> [-offsets]\n"

/-- Usage text registered for the `summary` key. -/
def summaryHelpText : String :=
  "Display overall summary information.\n\nUSAGE: summary\n"

/-- Usage text registered for the `io` key. -/
def ioHelpText : String :=
  "Visualize function page I/O access working setin basic block profile trace.\n\nUSAGE: io\n"

/-- Usage text registered for the `block` key. -/
def blockHelpText : String :=
  "Display top hot basic blocks in sorted order.\n\nUSAGE: block\n"

/-- Usage text registered for the `at-virtual` key. -/
def atVirtualHelpText : String :=
  "Display information about the function at a given virtual offset.\n\nUSAGE: at-virtual <OFFSET> [-json]\n"

/-- Usage text registered for the `help` key. -/
def helpHelpText : String :=
  "Help instructions for hbcdump tool commands.\n\nUSAGE: help <COMMAND>\n       h <COMMAND>\n"

/-- The static `commandToHelpText` map of `printHelp`, as an
association list.  The C++ container is an `unordered_map`, whose
enumeration order is unspecified; declaration order is used here. -/
def commandToHelpText : List (String × String) :=
  [("function", functionHelpText),
   ("instruction", instructionHelpText),
   ("disassemble", disassembleHelpText),
   ("summary", summaryHelpText),
   ("io", ioHelpText),
   ("block", blockHelpText),
   ("at-virtual", atVirtualHelpText),
   ("help", helpHelpText)]

/-- First-match key lookup in the help table. -/
def lookupHelpText : List (String × String) → String → Option String
  | [], _ => none
  | kv :: rest, key => if kv.1 = key then some kv.2 else lookupHelpText rest key

/-- The fixed preamble printed by `printHelp` with no (or an empty)
argument. -/
def topLevelHelpText : String :=
  "These commands are defined internally. Type `help\x27 to see this list.\nType `help name\x27 to find out more about the function `name\x27.\n\n"

/-- The per-key lines the no-argument `printHelp` prints after the
preamble (one `<key>\n` write per registered entry). -/
def helpKeyLines : List (String × String) → List Event
  | [] => []
  | kv :: rest => Event.help (kv.1 ++ "\n") :: helpKeyLines rest

/-- Model of `printHelp`: with a non-empty argument, print the
registered usage text verbatim, or the `Invalid command` fallback when
the key is absent; otherwise print the preamble and every key. -/
def printHelp (command : Option String) : List Event :=
  match command with
  | some c =>
    if c = "" then Event.help topLevelHelpText :: helpKeyLines commandToHelpText
    else
      match lookupHelpText commandToHelpText c with
      | none => [Event.help ("Invalid command: " ++ c ++ "\n")]
      | some text => [Event.help text]
  | none => Event.help topLevelHelpText :: helpKeyLines commandToHelpText

/-- Result of one `executeCommand` call: the loop-termination signal
(the C++ return value), the disassembler option set left behind, and
the trace of output writes and service calls. -/
structure ExecResult where
  terminate : Bool
  options : DisassemblyOptions
  events : List Event
deriving DecidableEq, Repr

/-- Control flow of the `executeCommand` body up to (but excluding)
the trailing `os << "\n"`: `ret` is an explicit `return` statement,
`fall` is falling off the end of the `if`/`else if` chain into the
separator write, and `oob` is the out-of-bounds `commandTokens[1]`
access (an `llvm::SmallVector` assertion failure). -/
inductive CoreResult where
  | ret (terminate : Bool) (options : DisassemblyOptions) (events : List Event)
  | fall (options : DisassemblyOptions) (events : List Event)
  | oob (message : String)
deriving DecidableEq, Repr

/-- The `function`/`fun` branch of `executeCommand`.  `command` is the
alias actually typed (it is what the bad-arity `printHelp` receives). -/
def functionCmd (opts : DisassemblyOptions) (command : String)
    (commandTokens : List String) : CoreResult :=
  match commandTokens with
  | [_] => CoreResult.fall opts [Event.call ServiceCall.dumpFunctionStats]
  | [_, arg] =>
    match getAsInteger arg with
    | none => CoreResult.ret false opts [Event.out "Error: cannot parse func_id as integer.\n"]
    | some funcId => CoreResult.fall opts [Event.call (ServiceCall.dumpFunctionBasicBlockStat funcId)]
  | _ => CoreResult.ret false opts (printHelp (some command))

/-- The `instruction`/`inst` branch of `executeCommand`. -/
def instructionCmd (opts : DisassemblyOptions) (command : String)
    (commandTokens : List String) : CoreResult :=
  match commandTokens with
  | [_] => CoreResult.fall opts [Event.call ServiceCall.dumpInstructionStats]
  | _ => CoreResult.ret false opts (printHelp (some command))

/-- The `disassemble`/`dis` branch of `executeCommand`.  The
`DisassemblerOptionsHolder` is inlined: `savedOptions` is what its
constructor stores, `currentOptions` what it installs, and every exit
of the branch carries `savedOptions` because the destructor restores
it on every path, early returns included. -/
def disassembleCmd (opts : DisassemblyOptions) (command : String)
    (commandTokens : List String) : CoreResult :=
  let removed := findAndRemoveOne commandTokens "-offsets"
  let localOptions :=
    if removed.1 then DisassemblyOptions.IncludeVirtualOffsets else DisassemblyOptions.None
  let savedOptions := opts
  let currentOptions := DisassemblyOptions.or opts localOptions
  match removed.2 with
  | [_] => CoreResult.fall savedOptions [Event.call (ServiceCall.disassemble currentOptions)]
  | [_, arg] =>
    match getAsInteger arg with
    | none => CoreResult.ret false savedOptions [Event.out "Error: cannot parse func_id as integer.\n"]
    | some funcId =>
      CoreResult.fall savedOptions [Event.call (ServiceCall.disassembleFunction funcId currentOptions)]
  | _ => CoreResult.ret false savedOptions (printHelp (some command))

/-- The `string`/`str` branch of `executeCommand`: it reads
`commandTokens[1]` without any size check, so a bare `string` performs
an out-of-bounds vector access (`oob`). -/
def stringCmd (opts : DisassemblyOptions) (commandTokens : List String) : CoreResult :=
  match commandTokens.get? 1 with
  | none => CoreResult.oob "SmallVector index out of bounds: commandTokens[1]"
  | some arg =>
    match getAsInteger arg with
    | none => CoreResult.ret false opts [Event.out "Error: cannot parse string_id as integer.\n"]
    | some stringId => CoreResult.fall opts [Event.call (ServiceCall.dumpString stringId)]

/-- The `filename` branch of `executeCommand`: like `string`, it reads
`commandTokens[1]` without any size check. -/
def filenameCmd (opts : DisassemblyOptions) (commandTokens : List String) : CoreResult :=
  match commandTokens.get? 1 with
  | none => CoreResult.oob "SmallVector index out of bounds: commandTokens[1]"
  | some arg =>
    match getAsInteger arg with
    | none => CoreResult.ret false opts [Event.out "Error: cannot parse filename_id as integer.\n"]
    | some filenameId => CoreResult.fall opts [Event.call (ServiceCall.dumpFileName filenameId)]

/-- The `offset`/`offsets` branch of `executeCommand`.  Note its
bad-arity arm prints a usage line and then falls through to the
separator (no early return in the C++). -/
def offsetCmd (opts : DisassemblyOptions) (commandTokens : List String) : CoreResult :=
  let removed := findAndRemoveOne commandTokens "-json"
  let json := removed.1
  match removed.2 with
  | [_] => CoreResult.fall opts [Event.call (ServiceCall.dumpAllFunctionOffsets json)]
  | [_, arg] =>
    match getAsInteger arg with
    | none => CoreResult.ret false opts [Event.out "Error: cannot parse func_id as integer.\n"]
    | some funcId => CoreResult.fall opts [Event.call (ServiceCall.dumpFunctionOffsets funcId json)]
  | _ => CoreResult.fall opts [Event.out "Usage: offsets [funcId]\n"]

/-- The `at_virtual`/`at-virtual` branch of `executeCommand`. -/
def atVirtualCmd (resolve : Nat → Option Nat) (opts : DisassemblyOptions) (command : String)
    (commandTokens : List String) : CoreResult :=
  let removed := findAndRemoveOne commandTokens "-json"
  let json := removed.1
  match removed.2 with
  | [_, arg] =>
    match getAsInteger arg with
    | none => CoreResult.ret false opts [Event.out "Error: cannot parse virtualOffset as integer.\n"]
    | some virtualOffset =>
      match resolve virtualOffset with
      | some funcId =>
        CoreResult.fall opts
          [Event.call (ServiceCall.getFunctionFromVirtualOffset virtualOffset),
           Event.call (ServiceCall.dumpFunctionOffsets funcId json)]
      | none =>
        CoreResult.fall opts
          [Event.call (ServiceCall.getFunctionFromVirtualOffset virtualOffset),
           Event.out ("Virtual offset " ++ toString virtualOffset ++ " is invalid.\n")]
  | _ => CoreResult.ret false opts (printHelp (some command))

/-- The `help`/`h` branch of `executeCommand`: an explicit
`return false` in the C++, so it never reaches the separator. -/
def helpCmd (opts : DisassemblyOptions) (commandTokens : List String) : CoreResult :=
  match commandTokens with
  | [_, arg] => CoreResult.ret false opts (printHelp (some arg))
  | _ => CoreResult.ret false opts (printHelp Option.none)

/-- The `if`/`else if` dispatch chain of `executeCommand`, on an
already-split token list.  `resolve` is the external
`ProfileAnalyzer::getFunctionFromVirtualOffset`. -/
def executeCommandCore (resolve : Nat → Option Nat) (opts : DisassemblyOptions)
    (commandTokens : List String) : CoreResult :=
  match commandTokens with
  | [] => CoreResult.ret false opts []
  | command :: _ =>
    if command = "function" || command = "fun" then
      functionCmd opts command commandTokens
    else if command = "instruction" || command = "inst" then
      instructionCmd opts command commandTokens
    else if command = "disassemble" || command = "dis" then
      disassembleCmd opts command commandTokens
    else if command = "string" || command = "str" then
      stringCmd opts commandTokens
    else if command = "filename" then
      filenameCmd opts commandTokens
    else if command = "offset" || command = "offsets" then
      offsetCmd opts commandTokens
    else if command = "io" then
      CoreResult.fall opts [Event.call ServiceCall.dumpIO]
    else if command = "summary" || command = "sum" then
      CoreResult.fall opts [Event.call ServiceCall.dumpSummary]
    else if command = "block" then
      CoreResult.fall opts [Event.call ServiceCall.dumpBasicBlockStats]
    else if command = "at_virtual" || command = "at-virtual" then
      atVirtualCmd resolve opts command commandTokens
    else if command = "epilogue" || command = "epi" then
      CoreResult.fall opts [Event.call ServiceCall.dumpEpilogue]
    else if command = "help" || command = "h" then
      helpCmd opts commandTokens
    else if command = "quit" then
      CoreResult.ret true opts []
    else
      CoreResult.ret false opts (printHelp (some command))

/-- Dispatch a token list: run the chain, then append the trailing
blank-line separator on the fall-through paths.  An `oob` outcome is
surfaced as `Except.error`. -/
def executeCommandTokens (resolve : Nat → Option Nat) (opts : DisassemblyOptions)
    (commandTokens : List String) : Except String ExecResult :=
  match executeCommandCore resolve opts commandTokens with
  | CoreResult.ret t o evs => Except.ok ⟨t, o, evs⟩
  | CoreResult.fall o evs => Except.ok ⟨false, o, evs ++ [Event.out "\n"]⟩
  | CoreResult.oob msg => Except.error msg

/-- `executeCommand`: split the raw line at spaces and dispatch. -/
def executeCommand (resolve : Nat → Option Nat) (opts : DisassemblyOptions)
    (commandWithOptions : String) : Except String ExecResult :=
  executeCommandTokens resolve opts (splitTokens commandWithOptions)

/-- The option set `enterCommandLoop` installs before any command runs:
include-source and include-function-ids, plus pretty when the
`-pretty-disassemble` flag (default true) is set. -/
def initialOptions (prettyDisassemble : Bool) : DisassemblyOptions :=
  let options := DisassemblyOptions.or DisassemblyOptions.IncludeSource DisassemblyOptions.IncludeFunctionIds
  if prettyDisassemble then DisassemblyOptions.or options DisassemblyOptions.Pretty else options

/-- The interactive prompt write. -/
def promptEvent : Event := Event.out "hbcdump> "

/-- The startup phase of `enterCommandLoop`: dispatch every startup
command in order, OR-ing each terminate result into the sticky
`terminateLoop` flag; the loop itself never breaks early.  Returns the
final flag, option set and event trace. -/
def runStartup (resolve : Nat → Option Nat) (opts : DisassemblyOptions)
    (terminateLoop : Bool) : List String → Except String (Bool × DisassemblyOptions × List Event)
  | [] => Except.ok (terminateLoop, opts, [])
  | c :: cs =>
    match executeCommand resolve opts c with
    | Except.error msg => Except.error msg
    | Except.ok r =>
      match runStartup resolve r.options (terminateLoop || r.terminate) cs with
      | Except.error msg => Except.error msg
      | Except.ok (t, o, evs) => Except.ok (t, o, r.events ++ evs)

/-- The interactive phase of `enterCommandLoop`: print the prompt,
read a line (the input list models stdin; its end is input
exhaustion), dispatch, and stop on a terminate signal or exhaustion. -/
def runInteractive (resolve : Nat → Option Nat) (opts : DisassemblyOptions) :
    List String → Except String (DisassemblyOptions × List Event)
  | [] => Except.ok (opts, [promptEvent])
  | line :: rest =>
    match executeCommand resolve opts line with
    | Except.error msg => Except.error msg
    | Except.ok r =>
      if r.terminate then Except.ok (r.options, promptEvent :: r.events)
      else
        match runInteractive resolve r.options rest with
        | Except.error msg => Except.error msg
        | Except.ok (o, evs) => Except.ok (o, promptEvent :: r.events ++ evs)

/-- `enterCommandLoop`: install the initial options, run the startup
batch, then enter the interactive loop unless a startup command
signalled termination. -/
def enterCommandLoop (resolve : Nat → Option Nat) (prettyDisassemble : Bool)
    (startupCommands inputLines : List String) : Except String (DisassemblyOptions × List Event) :=
  let opts := initialOptions prettyDisassemble
  match runStartup resolve opts false startupCommands with
  | Except.error msg => Except.error msg
  | Except.ok (terminateLoop, o, evs) =>
    if terminateLoop then Except.ok (o, evs)
    else
      match runInteractive resolve o inputLines with
      | Except.error msg => Except.error msg
      | Except.ok (o2, evs2) => Except.ok (o2, evs ++ evs2)

/-- Case analysis over the dispatch chain: to prove a property of
`executeCommandCore` on a non-empty token list it suffices to prove it
for each branch's result.  Mirrors the C++ `if`/`else if` chain. -/
theorem core_cases (resolve : Nat → Option Nat) (opts : DisassemblyOptions)
    (command : String) (rest : List String) (P : CoreResult → Prop)
    (hfun : P (functionCmd opts command (command :: rest)))
    (hinst : P (instructionCmd opts command (command :: rest)))
    (hdis : P (disassembleCmd opts command (command :: rest)))
    (hstr : P (stringCmd opts (command :: rest)))
    (hfile : P (filenameCmd opts (command :: rest)))
    (hoff : P (offsetCmd opts (command :: rest)))
    (hio : P (CoreResult.fall opts [Event.call ServiceCall.dumpIO]))
    (hsum : P (CoreResult.fall opts [Event.call ServiceCall.dumpSummary]))
    (hblock : P (CoreResult.fall opts [Event.call ServiceCall.dumpBasicBlockStats]))
    (hat : P (atVirtualCmd resolve opts command (command :: rest)))
    (hepi : P (CoreResult.fall opts [Event.call ServiceCall.dumpEpilogue]))
    (hhelp : P (helpCmd opts (command :: rest)))
    (hquit : P (CoreResult.ret true opts []))
    (hunk : P (CoreResult.ret false opts (printHelp (some command)))) :
    P (executeCommandCore resolve opts (command :: rest)) := by
  unfold executeCommandCore
  dsimp only
  by_cases h1 : (command = "function" || command = "fun") = true
  · rw [if_pos h1]; exact hfun
  rw [if_neg h1]
  by_cases h2 : (command = "instruction" || command = "inst") = true
  · rw [if_pos h2]; exact hinst
  rw [if_neg h2]
  by_cases h3 : (command = "disassemble" || command = "dis") = true
  · rw [if_pos h3]; exact hdis
  rw [if_neg h3]
  by_cases h4 : (command = "string" || command = "str") = true
  · rw [if_pos h4]; exact hstr
  rw [if_neg h4]
  by_cases h5 : command = "filename"
  · rw [if_pos h5]; exact hfile
  rw [if_neg h5]
  by_cases h6 : (command = "offset" || command = "offsets") = true
  · rw [if_pos h6]; exact hoff
  rw [if_neg h6]
  by_cases h7 : command = "io"
  · rw [if_pos h7]; exact hio
  rw [if_neg h7]
  by_cases h8 : (command = "summary" || command = "sum") = true
  · rw [if_pos h8]; exact hsum
  rw [if_neg h8]
  by_cases h9 : command = "block"
  · rw [if_pos h9]; exact hblock
  rw [if_neg h9]
  by_cases h10 : (command = "at_virtual" || command = "at-virtual") = true
  · rw [if_pos h10]; exact hat
  rw [if_neg h10]
  by_cases h11 : (command = "epilogue" || command = "epi") = true
  · rw [if_pos h11]; exact hepi
  rw [if_neg h11]
  by_cases h12 : (command = "help" || command = "h") = true
  · rw [if_pos h12]; exact hhelp
  rw [if_neg h12]
  by_cases h13 : command = "quit"
  · rw [if_pos h13]; exact hquit
  rw [if_neg h13]
  exact hunk

/-- The option set an `executeCommand` outcome leaves on the
disassembler service (trivial for the crashing `oob` outcome). -/
def CoreResult.optionsKept (r : CoreResult) (opts : DisassemblyOptions) : Prop :=
  match r with
  | CoreResult.ret _ o _ => o = opts
  | CoreResult.fall o _ => o = opts
  | CoreResult.oob _ => True

/-- The `function` branch leaves the baseline options untouched. -/
theorem functionCmd_opts (opts : DisassemblyOptions) (c : String) (ts : List String) :
    CoreResult.optionsKept (functionCmd opts c ts) opts := by
  unfold functionCmd
  repeat' (first | rfl | trivial | split)

/-- The `instruction` branch leaves the baseline options untouched. -/
theorem instructionCmd_opts (opts : DisassemblyOptions) (c : String) (ts : List String) :
    CoreResult.optionsKept (instructionCmd opts c ts) opts := by
  unfold instructionCmd
  repeat' (first | rfl | trivial | split)

/-- The `disassemble` branch restores the saved baseline options on
every exit path (the `DisassemblerOptionsHolder` destructor). -/
theorem disassembleCmd_opts (opts : DisassemblyOptions) (c : String) (ts : List String) :
    CoreResult.optionsKept (disassembleCmd opts c ts) opts := by
  unfold disassembleCmd
  dsimp only
  repeat' (first | rfl | trivial | split)

/-- The `string` branch leaves the baseline options untouched. -/
theorem stringCmd_opts (opts : DisassemblyOptions) (ts : List String) :
    CoreResult.optionsKept (stringCmd opts ts) opts := by
  unfold stringCmd
  repeat' (first | rfl | trivial | split)

/-- The `filename` branch leaves the baseline options untouched. -/
theorem filenameCmd_opts (opts : DisassemblyOptions) (ts : List String) :
    CoreResult.optionsKept (filenameCmd opts ts) opts := by
  unfold filenameCmd
  repeat' (first | rfl | trivial | split)

/-- The `offset` branch leaves the baseline options untouched. -/
theorem offsetCmd_opts (opts : DisassemblyOptions) (ts : List String) :
    CoreResult.optionsKept (offsetCmd opts ts) opts := by
  unfold offsetCmd
  dsimp only
  repeat' (first | rfl | trivial | split)

/-- The `at_virtual` branch leaves the baseline options untouched. -/
theorem atVirtualCmd_opts (resolve : Nat → Option Nat) (opts : DisassemblyOptions)
    (c : String) (ts : List String) :
    CoreResult.optionsKept (atVirtualCmd resolve opts c ts) opts := by
  unfold atVirtualCmd
  dsimp only
  repeat' (first | rfl | trivial | split)

/-- The `help` branch leaves the baseline options untouched. -/
theorem helpCmd_opts (opts : DisassemblyOptions) (ts : List String) :
    CoreResult.optionsKept (helpCmd opts ts) opts := by
  unfold helpCmd
  repeat' (first | rfl | trivial | split)

/-- Every branch of the dispatch chain leaves the baseline options
untouched. -/
theorem executeCommandCore_opts (resolve : Nat → Option Nat) (opts : DisassemblyOptions)
    (tokens : List String) :
    CoreResult.optionsKept (executeCommandCore resolve opts tokens) opts := by
  cases tokens with
  | nil => rfl
  | cons command rest =>
    exact core_cases resolve opts command rest (fun r => CoreResult.optionsKept r opts)
      (functionCmd_opts opts command (command :: rest))
      (instructionCmd_opts opts command (command :: rest))
      (disassembleCmd_opts opts command (command :: rest))
      (stringCmd_opts opts (command :: rest))
      (filenameCmd_opts opts (command :: rest))
      (offsetCmd_opts opts (command :: rest))
      rfl rfl rfl
      (atVirtualCmd_opts resolve opts command (command :: rest))
      rfl
      (helpCmd_opts opts (command :: rest))
      rfl rfl

/-- Token-list form of the restoration invariant. -/
theorem executeCommandTokens_opts (resolve : Nat → Option Nat) (opts : DisassemblyOptions)
    (tokens : List String) (r : ExecResult)
    (h : executeCommandTokens resolve opts tokens = Except.ok r) : r.options = opts := by
  have hk := executeCommandCore_opts resolve opts tokens
  unfold executeCommandTokens at h
  cases hcore : executeCommandCore resolve opts tokens with
  | ret t o e =>
    rw [hcore] at h hk
    cases h
    exact hk
  | fall o e =>
    rw [hcore] at h hk
    cases h
    exact hk
  | oob msg =>
    rw [hcore] at h
    cases h

/-- A resolver for which no virtual offset belongs to any function;
used to instantiate theorems at concrete inputs. -/
def noResolve : Nat → Option Nat := fun _ => Option.none

/-- The baseline option set of a default session
(`-pretty-disassemble` on). -/
def baseOptions : DisassemblyOptions := initialOptions true

/-- C1: for every single command dispatched — any flags, arguments or
parse failures, early returns included — the disassembler's persistent
option set after the command completes equals, bit for bit, the option
set before the command began. -/
theorem executeCommand_preserves_baseline_options (resolve : Nat → Option Nat)
    (opts : DisassemblyOptions) (line : String) (r : ExecResult)
    (h : executeCommand resolve opts line = Except.ok r) : r.options = opts :=
  executeCommandTokens_opts resolve opts (splitTokens line) r h

/-- Witness for C1: dispatching `disassemble -offsets` and then a bare
`disassemble` leaves the baseline option set equal to its value before
the first call. -/
theorem executeCommand_preserves_baseline_options_witness :
    ∃ r1 r2 : ExecResult,
      executeCommand noResolve baseOptions "disassemble -offsets" = Except.ok r1 ∧
      executeCommand noResolve r1.options "disassemble" = Except.ok r2 ∧
      r1.options = baseOptions ∧ r2.options = baseOptions :=
  ⟨⟨false, baseOptions, [Event.call (ServiceCall.disassemble ⟨true, true, true, true⟩), Event.out "\n"]⟩,
   ⟨false, baseOptions, [Event.call (ServiceCall.disassemble ⟨true, true, true, false⟩), Event.out "\n"]⟩,
   rfl, rfl,
   executeCommand_preserves_baseline_options noResolve baseOptions "disassemble -offsets" _ rfl,
   executeCommand_preserves_baseline_options noResolve baseOptions "disassemble" _ rfl⟩

/-- C9: a token sequence starting with `quit` terminates the loop no
matter how many tokens follow; no arity check is performed and nothing
is written. -/
theorem quit_terminates_any_arity (resolve : Nat → Option Nat) (opts : DisassemblyOptions)
    (rest : List String) :
    executeCommandTokens resolve opts ("quit" :: rest) = Except.ok ⟨true, opts, []⟩ := by
  simp [executeCommandTokens, executeCommandCore]

/-- C10: `io`, `summary`/`sum`, `block` and `epilogue`/`epi` invoke
their dump operation and return terminate=false whatever extra tokens
follow: the extra arguments are silently ignored. -/
theorem zero_arg_dumps_ignore_extra_args (resolve : Nat → Option Nat)
    (opts : DisassemblyOptions) (rest : List String) :
    executeCommandTokens resolve opts ("io" :: rest) =
      Except.ok ⟨false, opts, [Event.call ServiceCall.dumpIO, Event.out "\n"]⟩ ∧
    executeCommandTokens resolve opts ("summary" :: rest) =
      Except.ok ⟨false, opts, [Event.call ServiceCall.dumpSummary, Event.out "\n"]⟩ ∧
    executeCommandTokens resolve opts ("sum" :: rest) =
      Except.ok ⟨false, opts, [Event.call ServiceCall.dumpSummary, Event.out "\n"]⟩ ∧
    executeCommandTokens resolve opts ("block" :: rest) =
      Except.ok ⟨false, opts, [Event.call ServiceCall.dumpBasicBlockStats, Event.out "\n"]⟩ ∧
    executeCommandTokens resolve opts ("epilogue" :: rest) =
      Except.ok ⟨false, opts, [Event.call ServiceCall.dumpEpilogue, Event.out "\n"]⟩ ∧
    executeCommandTokens resolve opts ("epi" :: rest) =
      Except.ok ⟨false, opts, [Event.call ServiceCall.dumpEpilogue, Event.out "\n"]⟩ := by
  refine ⟨?_, ?_, ?_, ?_, ?_, ?_⟩ <;> simp [executeCommandTokens, executeCommandCore]

/-- C3 is violated by the code: a bare `string` (and a bare
`filename`) reaches `commandTokens[1]` without any argument-count
check, an out-of-bounds access of the token sequence. -/
theorem string_zero_args_out_of_bounds :
    executeCommand noResolve baseOptions "string" =
      Except.error "SmallVector index out of bounds: commandTokens[1]" ∧
    executeCommand noResolve baseOptions "filename" =
      Except.error "SmallVector index out of bounds: commandTokens[1]" :=
  ⟨rfl, rfl⟩

/-- C4 is violated by the code: splitting an empty line yields the
single empty token, so the empty-sequence guard never fires; the empty
command name matches nothing and falls to `printHelp`, which prints
the whole top-level help listing.  The dispatch does return
terminate=false, but it is not a no-op. -/
theorem empty_line_prints_top_level_help :
    executeCommand noResolve baseOptions "" =
      Except.ok ⟨false, baseOptions, Event.help topLevelHelpText :: helpKeyLines commandToHelpText⟩ ∧
    Event.help topLevelHelpText :: helpKeyLines commandToHelpText ≠ ([] : List Event) :=
  ⟨rfl, by simp⟩

/-- C8: flag extraction removes exactly the first exact match, keeping
the order of the remaining tokens, and returns true; with no match it
returns false and leaves the sequence unchanged. -/
theorem findAndRemoveOne_first_match_spec (haystack : List String) (needle : String) :
    (needle ∈ haystack → ∃ l1 l2, haystack = l1 ++ needle :: l2 ∧ needle ∉ l1 ∧
       findAndRemoveOne haystack needle = (true, l1 ++ l2)) ∧
    (needle ∉ haystack → findAndRemoveOne haystack needle = (false, haystack)) := by
  induction haystack with
  | nil =>
    refine ⟨fun h => absurd h (List.not_mem_nil needle), fun _ => rfl⟩
  | cons x xs ih =>
    constructor
    · intro hmem
      by_cases hx : x = needle
      · subst hx
        exact ⟨[], xs, rfl, List.not_mem_nil x, by simp [findAndRemoveOne]⟩
      · have hmem' : needle ∈ xs := by
          rcases List.mem_cons.mp hmem with h | h
          · exact absurd h.symm hx
          · exact h
        obtain ⟨l1, l2, heq, hnot, hrun⟩ := ih.1 hmem'
        refine ⟨x :: l1, l2, by simp [heq], ?_, ?_⟩
        · intro hin
          rcases List.mem_cons.mp hin with h | h
          · exact hx h.symm
          · exact hnot h
        · simp [findAndRemoveOne, hx, hrun]
    · intro hnmem
      have hx : ¬ x = needle := fun h => hnmem (h ▸ List.mem_cons_self x xs)
      have hxs : needle ∉ xs := fun h => hnmem (List.mem_cons_of_mem x h)
      simp [findAndRemoveOne, hx, ih.2 hxs]

/-- Witness for C8: extraction at a concrete token sequence with and
without the flag present. -/
theorem findAndRemoveOne_first_match_spec_witness :
    (∃ l1 l2, ["dis", "-offsets", "7"] = l1 ++ "-offsets" :: l2 ∧ "-offsets" ∉ l1 ∧
       findAndRemoveOne ["dis", "-offsets", "7"] "-offsets" = (true, l1 ++ l2)) ∧
    findAndRemoveOne ["dis", "7"] "-offsets" = (false, ["dis", "7"]) :=
  ⟨(findAndRemoveOne_first_match_spec ["dis", "-offsets", "7"] "-offsets").1 (by decide),
   (findAndRemoveOne_first_match_spec ["dis", "7"] "-offsets").2 (by decide)⟩

/-- C7: for every numeric-argument command, an argument token that
does not parse as an unsigned integer (any base prefix accepted)
aborts only that command: a "cannot parse ... as integer" message is
written, terminate=false is returned and the baseline state is
untouched, so the session accepts subsequent commands.  The last
conjuncts record the accepted base prefixes. -/
theorem numeric_parse_failure_recoverable (resolve : Nat → Option Nat)
    (opts : DisassemblyOptions) (t : String) (hp : getAsInteger t = Option.none)
    (ho : t ≠ "-offsets") (hj : t ≠ "-json") :
    executeCommandTokens resolve opts ["function", t] =
      Except.ok ⟨false, opts, [Event.out "Error: cannot parse func_id as integer.\n"]⟩ ∧
    executeCommandTokens resolve opts ["disassemble", t] =
      Except.ok ⟨false, opts, [Event.out "Error: cannot parse func_id as integer.\n"]⟩ ∧
    executeCommandTokens resolve opts ["string", t] =
      Except.ok ⟨false, opts, [Event.out "Error: cannot parse string_id as integer.\n"]⟩ ∧
    executeCommandTokens resolve opts ["filename", t] =
      Except.ok ⟨false, opts, [Event.out "Error: cannot parse filename_id as integer.\n"]⟩ ∧
    executeCommandTokens resolve opts ["offset", t] =
      Except.ok ⟨false, opts, [Event.out "Error: cannot parse func_id as integer.\n"]⟩ ∧
    executeCommandTokens resolve opts ["at_virtual", t] =
      Except.ok ⟨false, opts, [Event.out "Error: cannot parse virtualOffset as integer.\n"]⟩ ∧
    getAsInteger "0x1F" = some 31 ∧ getAsInteger "0b101" = some 5 ∧
    getAsInteger "0o17" = some 15 ∧ getAsInteger "017" = some 15 ∧
    getAsInteger "42" = some 42 := by
  refine ⟨?_, ?_, ?_, ?_, ?_, ?_, rfl, rfl, rfl, rfl, rfl⟩ <;>
    simp [executeCommandTokens, executeCommandCore, functionCmd, disassembleCmd, stringCmd,
          filenameCmd, offsetCmd, atVirtualCmd, findAndRemoveOne, hp, ho, hj]

/-- Witness for C7: the non-numeric token `abc` aborts `function`
recoverably. -/
theorem numeric_parse_failure_recoverable_witness :
    executeCommandTokens noResolve baseOptions ["function", "abc"] =
      Except.ok ⟨false, baseOptions, [Event.out "Error: cannot parse func_id as integer.\n"]⟩ :=
  (numeric_parse_failure_recoverable noResolve baseOptions "abc" rfl (by decide) (by decide)).1

/-- Counterexample to C5 as stated: `io` does have a registered help
entry, so requesting help for it prints that entry's usage text, not
the "Invalid command" fallback. -/
theorem help_io_registered_cx :
    printHelp (some "io") = [Event.help ioHelpText] ∧
    Event.help ("Invalid command: " ++ "io" ++ "\n") ∉ printHelp (some "io") :=
  ⟨rfl, by decide⟩

/-- C5 (amended): a name with a registered help entry prints that
entry's usage text verbatim — this includes `io`, `summary` and
`block`, which are registered keys — while `string`, `filename` and
`epilogue` have no entry and print the "Invalid command" fallback. -/
theorem printHelp_registered_and_fallback :
    (∀ k t, lookupHelpText commandToHelpText k = some t → printHelp (some k) = [Event.help t]) ∧
    printHelp (some "io") = [Event.help ioHelpText] ∧
    printHelp (some "summary") = [Event.help summaryHelpText] ∧
    printHelp (some "block") = [Event.help blockHelpText] ∧
    printHelp (some "string") = [Event.help "Invalid command: string\n"] ∧
    printHelp (some "filename") = [Event.help "Invalid command: filename\n"] ∧
    printHelp (some "epilogue") = [Event.help "Invalid command: epilogue\n"] := by
  refine ⟨?_, rfl, rfl, rfl, rfl, rfl, rfl⟩
  intro k t h
  by_cases hk : k = ""
  · subst hk
    simp [lookupHelpText, commandToHelpText] at h
  · simp [printHelp, hk, h]

/-- Witness for C5: the registered `function` key prints its text
verbatim. -/
theorem printHelp_registered_and_fallback_witness :
    printHelp (some "function") = [Event.help functionHelpText] :=
  printHelp_registered_and_fallback.1 "function" functionHelpText rfl

/-- Forget the sticky terminate flag of a startup run, keeping the
final option state and the event trace. -/
def dropTerminateFlag (x : Except String (Bool × DisassemblyOptions × List Event)) :
    Except String (DisassemblyOptions × List Event) :=
  match x with
  | Except.error m => Except.error m
  | Except.ok (_, o, e) => Except.ok (o, e)

/-- Counterexample to C2 as stated: in the startup batch
`["quit", "io"]` the command after `quit` is still dispatched — the
trace of the whole session contains the `io` dump call. -/
theorem startup_continues_after_quit_cx :
    enterCommandLoop noResolve true ["quit", "io"] [] =
      Except.ok (baseOptions, [Event.call ServiceCall.dumpIO, Event.out "\n"]) ∧
    Event.call ServiceCall.dumpIO ∈ [Event.call ServiceCall.dumpIO, Event.out "\n"] :=
  ⟨rfl, by decide⟩

/-- C2 (amended): the startup loop never breaks early — the terminate
flag is sticky but does not affect which startup commands run or what
they do (second conjunct) — and once the startup batch finishes with
the flag set, the interactive loop is never entered: the session
result is exactly the startup trace, whatever input would have been
available (first conjunct). -/
theorem startup_terminate_skips_interactive :
    (∀ (resolve : Nat → Option Nat) (pretty : Bool) (cmds input : List String)
       (o : DisassemblyOptions) (evs : List Event),
       runStartup resolve (initialOptions pretty) false cmds = Except.ok (true, o, evs) →
       enterCommandLoop resolve pretty cmds input = Except.ok (o, evs)) ∧
    (∀ (resolve : Nat → Option Nat) (cmds : List String) (opts : DisassemblyOptions)
       (t1 t2 : Bool),
       dropTerminateFlag (runStartup resolve opts t1 cmds) =
       dropTerminateFlag (runStartup resolve opts t2 cmds)) := by
  constructor
  · intro resolve pretty cmds input o evs h
    unfold enterCommandLoop
    dsimp only
    rw [h]
    rfl
  · intro resolve cmds
    induction cmds with
    | nil => intro opts t1 t2; rfl
    | cons c cs ih =>
      intro opts t1 t2
      simp only [runStartup]
      cases hexec : executeCommand resolve opts c with
      | error msg => rfl
      | ok r =>
        have hstep := ih r.options (t1 || r.terminate) (t2 || r.terminate)
        cases h1 : runStartup resolve r.options (t1 || r.terminate) cs with
        | error m1 =>
          cases h2 : runStartup resolve r.options (t2 || r.terminate) cs with
          | error m2 => simp_all [dropTerminateFlag]
          | ok p2 => simp_all [dropTerminateFlag]
        | ok p1 =>
          cases h2 : runStartup resolve r.options (t2 || r.terminate) cs with
          | error m2 => simp_all [dropTerminateFlag]
          | ok p2 =>
            obtain ⟨tt1, o1, e1⟩ := p1
            obtain ⟨tt2, o2, e2⟩ := p2
            simp_all [dropTerminateFlag]

/-- Witness for C2: the batch `["summary", "quit"]` runs the summary
dump, terminates, and never reads the pending interactive line. -/
theorem startup_terminate_skips_interactive_witness :
    enterCommandLoop noResolve true ["summary", "quit"] ["io"] =
      Except.ok (baseOptions, [Event.call ServiceCall.dumpSummary, Event.out "\n"]) :=
  startup_terminate_skips_interactive.1 noResolve true ["summary", "quit"] ["io"] baseOptions
    [Event.call ServiceCall.dumpSummary, Event.out "\n"] rfl

/-- Whether an outcome of the dispatch chain falls through to the
trailing `os << "\n"` separator write. -/
def CoreResult.isFall : CoreResult → Bool
  | CoreResult.fall _ _ => true
  | _ => false

/-- The events a chain branch emits itself never include a bare
blank-line write (the separator is only appended afterwards, on the
fall-through paths). -/
def CoreResult.sepFree (r : CoreResult) : Prop :=
  match r with
  | CoreResult.ret _ _ evs => Event.out "\n" ∉ evs
  | CoreResult.fall _ evs => Event.out "\n" ∉ evs
  | CoreResult.oob _ => True

/-- Every event `printHelp` emits is a `help` write. -/
theorem printHelp_only_help (o : Option String) (e : Event) (he : e ∈ printHelp o) :
    ∃ s, e = Event.help s := by
  have hkeys : ∀ (l : List (String × String)), e ∈ helpKeyLines l → ∃ s, e = Event.help s := by
    intro l
    induction l with
    | nil => intro h; cases h
    | cons kv rest ih =>
      intro h
      rcases List.mem_cons.mp h with h | h
      · exact ⟨kv.1 ++ "\n", h⟩
      · exact ih h
  unfold printHelp at he
  rcases o with _ | c
  · rcases List.mem_cons.mp he with h | h
    · exact ⟨topLevelHelpText, h⟩
    · exact hkeys _ h
  · dsimp only at he
    by_cases hc : c = ""
    · rw [if_pos hc] at he
      rcases List.mem_cons.mp he with h | h
      · exact ⟨topLevelHelpText, h⟩
      · exact hkeys _ h
    · rw [if_neg hc] at he
      cases hl : lookupHelpText commandToHelpText c with
      | none =>
        rw [hl] at he
        rcases List.mem_cons.mp he with h | h
        · exact ⟨"Invalid command: " ++ c ++ "\n", h⟩
        · cases h
      | some text =>
        rw [hl] at he
        rcases List.mem_cons.mp he with h | h
        · exact ⟨text, h⟩
        · cases h

/-- The bare separator string is never among `printHelp`'s writes. -/
theorem printHelp_no_sep (o : Option String) : Event.out "\n" ∉ printHelp o := by
  intro h
  obtain ⟨s, hs⟩ := printHelp_only_help o (Event.out "\n") h
  cases hs

/-- The invalid-virtual-offset message is never the bare separator. -/
theorem virtual_msg_ne_sep (v : Nat) :
    ("Virtual offset " ++ toString v ++ " is invalid.\n") ≠ "\n" := by
  intro h
  have hl := congrArg String.length h
  have h1 : ("Virtual offset " : String).length = 15 := rfl
  have h2 : (" is invalid.\n" : String).length = 13 := rfl
  have h3 : ("\n" : String).length = 1 := rfl
  rw [String.length_append, String.length_append, h1, h2, h3] at hl
  omega


/-- The `function` branch emits no bare separator itself. -/
theorem functionCmd_sepFree (opts : DisassemblyOptions) (c : String) (ts : List String) :
    CoreResult.sepFree (functionCmd opts c ts) := by
  unfold functionCmd
  repeat' split
  all_goals
    first
    | exact printHelp_no_sep (some c)
    | trivial
    | solve | simp [CoreResult.sepFree]

/-- The `instruction` branch emits no bare separator itself. -/
theorem instructionCmd_sepFree (opts : DisassemblyOptions) (c : String) (ts : List String) :
    CoreResult.sepFree (instructionCmd opts c ts) := by
  unfold instructionCmd
  repeat' split
  all_goals
    first
    | exact printHelp_no_sep (some c)
    | trivial
    | solve | simp [CoreResult.sepFree]

/-- The `disassemble` branch emits no bare separator itself. -/
theorem disassembleCmd_sepFree (opts : DisassemblyOptions) (c : String) (ts : List String) :
    CoreResult.sepFree (disassembleCmd opts c ts) := by
  unfold disassembleCmd
  dsimp only
  repeat' split
  all_goals
    first
    | exact printHelp_no_sep (some c)
    | trivial
    | solve | simp [CoreResult.sepFree]

/-- The `string` branch emits no bare separator itself. -/
theorem stringCmd_sepFree (opts : DisassemblyOptions) (ts : List String) :
    CoreResult.sepFree (stringCmd opts ts) := by
  unfold stringCmd
  repeat' split
  all_goals first | trivial | solve | simp [CoreResult.sepFree]

/-- The `filename` branch emits no bare separator itself. -/
theorem filenameCmd_sepFree (opts : DisassemblyOptions) (ts : List String) :
    CoreResult.sepFree (filenameCmd opts ts) := by
  unfold filenameCmd
  repeat' split
  all_goals first | trivial | solve | simp [CoreResult.sepFree]

/-- The `offset` branch emits no bare separator itself (its usage
message is not the separator). -/
theorem offsetCmd_sepFree (opts : DisassemblyOptions) (ts : List String) :
    CoreResult.sepFree (offsetCmd opts ts) := by
  unfold offsetCmd
  dsimp only
  repeat' split
  all_goals first | trivial | solve | simp [CoreResult.sepFree]

/-- The `at_virtual` branch emits no bare separator itself (the
invalid-offset message is longer than the separator). -/
theorem atVirtualCmd_sepFree (resolve : Nat → Option Nat) (opts : DisassemblyOptions)
    (c : String) (ts : List String) :
    CoreResult.sepFree (atVirtualCmd resolve opts c ts) := by
  unfold atVirtualCmd
  dsimp only
  repeat' split
  all_goals
    first
    | exact printHelp_no_sep (some c)
    | trivial
    | solve | simp [CoreResult.sepFree]
    | (simp [CoreResult.sepFree]
       exact fun h => virtual_msg_ne_sep _ h.symm)

/-- The `help` branch emits no bare separator. -/
theorem helpCmd_sepFree (opts : DisassemblyOptions) (ts : List String) :
    CoreResult.sepFree (helpCmd opts ts) := by
  unfold helpCmd
  repeat' split
  all_goals
    first
    | exact printHelp_no_sep Option.none
    | (intro hmem; exact printHelp_no_sep _ hmem)

/-- No branch of the dispatch chain writes the bare separator within
its own events. -/
theorem executeCommandCore_sepFree (resolve : Nat → Option Nat) (opts : DisassemblyOptions)
    (tokens : List String) :
    CoreResult.sepFree (executeCommandCore resolve opts tokens) := by
  cases tokens with
  | nil => exact List.not_mem_nil (Event.out "\n")
  | cons command rest =>
    refine core_cases resolve opts command rest CoreResult.sepFree
      (functionCmd_sepFree opts command (command :: rest))
      (instructionCmd_sepFree opts command (command :: rest))
      (disassembleCmd_sepFree opts command (command :: rest))
      (stringCmd_sepFree opts (command :: rest))
      (filenameCmd_sepFree opts (command :: rest))
      (offsetCmd_sepFree opts (command :: rest))
      ?_ ?_ ?_
      (atVirtualCmd_sepFree resolve opts command (command :: rest))
      ?_
      (helpCmd_sepFree opts (command :: rest))
      ?_
      (printHelp_no_sep (some command))
    all_goals first | exact List.not_mem_nil (Event.out "\n") | solve | simp [CoreResult.sepFree]

/-- Conditional case analysis over the dispatch chain: like
`core_cases` but each branch hypothesis may assume the alias test that
selects it, and the fallback hypothesis knows the command matched no
alias. -/
theorem core_cases_cond (resolve : Nat → Option Nat) (opts : DisassemblyOptions)
    (command : String) (rest : List String) (P : CoreResult → Prop)
    (hfun : command = "function" ∨ command = "fun" → P (functionCmd opts command (command :: rest)))
    (hinst : command = "instruction" ∨ command = "inst" → P (instructionCmd opts command (command :: rest)))
    (hdis : command = "disassemble" ∨ command = "dis" → P (disassembleCmd opts command (command :: rest)))
    (hstr : command = "string" ∨ command = "str" → P (stringCmd opts (command :: rest)))
    (hfile : command = "filename" → P (filenameCmd opts (command :: rest)))
    (hoff : command = "offset" ∨ command = "offsets" → P (offsetCmd opts (command :: rest)))
    (hio : command = "io" → P (CoreResult.fall opts [Event.call ServiceCall.dumpIO]))
    (hsum : command = "summary" ∨ command = "sum" → P (CoreResult.fall opts [Event.call ServiceCall.dumpSummary]))
    (hblock : command = "block" → P (CoreResult.fall opts [Event.call ServiceCall.dumpBasicBlockStats]))
    (hat : command = "at_virtual" ∨ command = "at-virtual" → P (atVirtualCmd resolve opts command (command :: rest)))
    (hepi : command = "epilogue" ∨ command = "epi" → P (CoreResult.fall opts [Event.call ServiceCall.dumpEpilogue]))
    (hhelp : command = "help" ∨ command = "h" → P (helpCmd opts (command :: rest)))
    (hquit : command = "quit" → P (CoreResult.ret true opts []))
    (hunk : command ≠ "function" → command ≠ "fun" → command ≠ "instruction" →
            command ≠ "inst" → command ≠ "disassemble" → command ≠ "dis" →
            command ≠ "string" → command ≠ "str" → command ≠ "filename" →
            command ≠ "offset" → command ≠ "offsets" → command ≠ "io" →
            command ≠ "summary" → command ≠ "sum" → command ≠ "block" →
            command ≠ "at_virtual" → command ≠ "at-virtual" → command ≠ "epilogue" →
            command ≠ "epi" → command ≠ "help" → command ≠ "h" → command ≠ "quit" →
            P (CoreResult.ret false opts (printHelp (some command)))) :
    P (executeCommandCore resolve opts (command :: rest)) := by
  unfold executeCommandCore
  dsimp only
  by_cases h1 : (command = "function" || command = "fun") = true
  · rw [if_pos h1]; exact hfun (by simpa using h1)
  rw [if_neg h1]
  by_cases h2 : (command = "instruction" || command = "inst") = true
  · rw [if_pos h2]; exact hinst (by simpa using h2)
  rw [if_neg h2]
  by_cases h3 : (command = "disassemble" || command = "dis") = true
  · rw [if_pos h3]; exact hdis (by simpa using h3)
  rw [if_neg h3]
  by_cases h4 : (command = "string" || command = "str") = true
  · rw [if_pos h4]; exact hstr (by simpa using h4)
  rw [if_neg h4]
  by_cases h5 : command = "filename"
  · rw [if_pos h5]; exact hfile h5
  rw [if_neg h5]
  by_cases h6 : (command = "offset" || command = "offsets") = true
  · rw [if_pos h6]; exact hoff (by simpa using h6)
  rw [if_neg h6]
  by_cases h7 : command = "io"
  · rw [if_pos h7]; exact hio h7
  rw [if_neg h7]
  by_cases h8 : (command = "summary" || command = "sum") = true
  · rw [if_pos h8]; exact hsum (by simpa using h8)
  rw [if_neg h8]
  by_cases h9 : command = "block"
  · rw [if_pos h9]; exact hblock h9
  rw [if_neg h9]
  by_cases h10 : (command = "at_virtual" || command = "at-virtual") = true
  · rw [if_pos h10]; exact hat (by simpa using h10)
  rw [if_neg h10]
  by_cases h11 : (command = "epilogue" || command = "epi") = true
  · rw [if_pos h11]; exact hepi (by simpa using h11)
  rw [if_neg h11]
  by_cases h12 : (command = "help" || command = "h") = true
  · rw [if_pos h12]; exact hhelp (by simpa using h12)
  rw [if_neg h12]
  by_cases h13 : command = "quit"
  · rw [if_pos h13]; exact hquit h13
  rw [if_neg h13]
  simp only [Bool.or_eq_true, decide_eq_true_eq, not_or] at h1 h2 h3 h4 h6 h8 h10 h11 h12
  exact hunk h1.1 h1.2 h2.1 h2.2 h3.1 h3.2 h4.1 h4.2 h5 h6.1 h6.2 h7 h8.1 h8.2 h9
    h10.1 h10.2 h11.1 h11.2 h12.1 h12.2 h13

/-- Arity test shared by the `function` and `disassemble` handlers: a
lone command name, or a command name plus one argument that parses as
an unsigned integer. -/
def numericArity (ts : List String) : Bool :=
  ts.length == 1 || (ts.length == 2 && (getAsInteger (ts.getD 1 "")).isSome)

/-- Specification-side predicate (amended C6) deciding, from the token
sequence alone, whether the dispatcher writes the trailing blank-line
separator: every recognized, well-formed command path writes it,
except `help` and `quit` which return early; parse-error and
`printHelp` bad-arity paths skip it; the `offset` bad-arity usage
message nevertheless falls through to it. -/
def writesSeparator (tokens : List String) : Bool :=
  match tokens with
  | [] => false
  | command :: _ =>
    if command = "function" ∨ command = "fun" then
      numericArity tokens
    else if command = "instruction" ∨ command = "inst" then
      tokens.length == 1
    else if command = "disassemble" ∨ command = "dis" then
      numericArity (findAndRemoveOne tokens "-offsets").2
    else if command = "string" ∨ command = "str" then
      decide (2 ≤ tokens.length) && (getAsInteger (tokens.getD 1 "")).isSome
    else if command = "filename" then
      decide (2 ≤ tokens.length) && (getAsInteger (tokens.getD 1 "")).isSome
    else if command = "offset" ∨ command = "offsets" then
      (findAndRemoveOne tokens "-json").2.length != 2 ||
        (getAsInteger ((findAndRemoveOne tokens "-json").2.getD 1 "")).isSome
    else if command = "io" ∨ command = "summary" ∨ command = "sum" ∨ command = "block" ∨
            command = "epilogue" ∨ command = "epi" then
      true
    else if command = "at_virtual" ∨ command = "at-virtual" then
      (findAndRemoveOne tokens "-json").2.length == 2 &&
        (getAsInteger ((findAndRemoveOne tokens "-json").2.getD 1 "")).isSome
    else false

/-- The `function` branch falls through exactly on the numeric arity. -/
theorem functionCmd_fall (opts : DisassemblyOptions) (c : String) (ts : List String) :
    (functionCmd opts c ts).isFall = numericArity ts := by
  unfold functionCmd numericArity
  rcases ts with _ | ⟨a, _ | ⟨b, _ | ⟨d, rest⟩⟩⟩
  · rfl
  · rfl
  · cases hg : getAsInteger b <;> simp [CoreResult.isFall, hg]
  · rfl

/-- The `instruction` branch falls through exactly on a lone token. -/
theorem instructionCmd_fall (opts : DisassemblyOptions) (c : String) (ts : List String) :
    (instructionCmd opts c ts).isFall = (ts.length == 1) := by
  unfold instructionCmd
  rcases ts with _ | ⟨a, _ | ⟨b, rest⟩⟩
  · rfl
  · rfl
  · rfl

/-- The `disassemble` branch falls through exactly on the numeric
arity of the tokens left after extracting `-offsets`. -/
theorem disassembleCmd_fall (opts : DisassemblyOptions) (c : String) (ts : List String) :
    (disassembleCmd opts c ts).isFall = numericArity (findAndRemoveOne ts "-offsets").2 := by
  unfold disassembleCmd numericArity
  dsimp only
  rcases (findAndRemoveOne ts "-offsets").2 with _ | ⟨a, _ | ⟨b, _ | ⟨d, rest⟩⟩⟩
  · rfl
  · rfl
  · cases hg : getAsInteger b <;> simp [CoreResult.isFall, hg]
  · rfl

/-- The `string` branch falls through exactly when a second token
exists and parses. -/
theorem stringCmd_fall (opts : DisassemblyOptions) (ts : List String) :
    (stringCmd opts ts).isFall =
      (decide (2 ≤ ts.length) && (getAsInteger (ts.getD 1 "")).isSome) := by
  unfold stringCmd
  rcases ts with _ | ⟨a, _ | ⟨b, rest⟩⟩
  · rfl
  · rfl
  · cases hg : getAsInteger b <;> simp [CoreResult.isFall, hg, List.getD]

/-- The `filename` branch falls through exactly when a second token
exists and parses. -/
theorem filenameCmd_fall (opts : DisassemblyOptions) (ts : List String) :
    (filenameCmd opts ts).isFall =
      (decide (2 ≤ ts.length) && (getAsInteger (ts.getD 1 "")).isSome) := by
  unfold filenameCmd
  rcases ts with _ | ⟨a, _ | ⟨b, rest⟩⟩
  · rfl
  · rfl
  · cases hg : getAsInteger b <;> simp [CoreResult.isFall, hg, List.getD]

/-- The `offset` branch falls through unless exactly two tokens remain
after extracting `-json` and the second fails to parse. -/
theorem offsetCmd_fall (opts : DisassemblyOptions) (ts : List String) :
    (offsetCmd opts ts).isFall =
      ((findAndRemoveOne ts "-json").2.length != 2 ||
        (getAsInteger ((findAndRemoveOne ts "-json").2.getD 1 "")).isSome) := by
  unfold offsetCmd
  dsimp only
  rcases (findAndRemoveOne ts "-json").2 with _ | ⟨a, _ | ⟨b, _ | ⟨d, rest⟩⟩⟩
  · rfl
  · rfl
  · cases hg : getAsInteger b <;> simp [CoreResult.isFall, hg, List.getD]
  · rfl

/-- The `at_virtual` branch falls through exactly when two tokens
remain after extracting `-json` and the second parses (whether or not
the offset resolves to a function). -/
theorem atVirtualCmd_fall (resolve : Nat → Option Nat) (opts : DisassemblyOptions)
    (c : String) (ts : List String) :
    (atVirtualCmd resolve opts c ts).isFall =
      ((findAndRemoveOne ts "-json").2.length == 2 &&
        (getAsInteger ((findAndRemoveOne ts "-json").2.getD 1 "")).isSome) := by
  unfold atVirtualCmd
  dsimp only
  rcases (findAndRemoveOne ts "-json").2 with _ | ⟨a, _ | ⟨b, _ | ⟨d, rest⟩⟩⟩
  · rfl
  · rfl
  · cases hg : getAsInteger b with
    | none => simp [CoreResult.isFall, hg, List.getD]
    | some v => cases hr : resolve v <;> simp [CoreResult.isFall, hg, hr, List.getD]
  · rfl

/-- The `help` branch never falls through. -/
theorem helpCmd_fall (opts : DisassemblyOptions) (ts : List String) :
    (helpCmd opts ts).isFall = false := by
  unfold helpCmd
  rcases ts with _ | ⟨a, _ | ⟨b, _ | ⟨d, rest⟩⟩⟩
  · rfl
  · rfl
  · rfl
  · rfl

/-- A dispatch falls through to the separator write exactly when the
specification predicate `writesSeparator` says so. -/
theorem executeCommandCore_fall_eq (resolve : Nat → Option Nat) (opts : DisassemblyOptions)
    (tokens : List String) :
    (executeCommandCore resolve opts tokens).isFall = writesSeparator tokens := by
  cases tokens with
  | nil => rfl
  | cons command rest =>
    apply core_cases_cond resolve opts command rest
      (fun r => CoreResult.isFall r = writesSeparator (command :: rest))
    · intro h
      rcases h with h | h <;> subst h <;> simp [writesSeparator, functionCmd_fall]
    · intro h
      rcases h with h | h <;> subst h <;> simp [writesSeparator, instructionCmd_fall]
    · intro h
      rcases h with h | h <;> subst h <;> simp [writesSeparator, disassembleCmd_fall]
    · intro h
      rcases h with h | h <;> subst h <;> simp [writesSeparator, stringCmd_fall]
    · intro h
      subst h
      simp [writesSeparator, filenameCmd_fall]
    · intro h
      rcases h with h | h <;> subst h <;> simp [writesSeparator, offsetCmd_fall]
    · intro h
      subst h
      simp [writesSeparator, CoreResult.isFall]
    · intro h
      rcases h with h | h <;> subst h <;> simp [writesSeparator, CoreResult.isFall]
    · intro h
      subst h
      simp [writesSeparator, CoreResult.isFall]
    · intro h
      rcases h with h | h <;> subst h <;> simp [writesSeparator, atVirtualCmd_fall]
    · intro h
      rcases h with h | h <;> subst h <;> simp [writesSeparator, CoreResult.isFall]
    · intro h
      rcases h with h | h <;> subst h <;> (rw [helpCmd_fall]; simp [writesSeparator])
    · intro h
      subst h
      simp [writesSeparator, CoreResult.isFall]
    · intro a1 a2 a3 a4 a5 a6 a7 a8 a9 a10 a11 a12 a13 a14 a15 a16 a17 a18 a19 a20 a21 a22
      simp [writesSeparator, CoreResult.isFall,
        a1, a2, a3, a4, a5, a6, a7, a8, a9, a10, a11,
        a12, a13, a14, a15, a16, a17, a18, a19, a20, a21, a22]

/-- Counterexample to C6 as stated: `help` completes successfully
(terminate=false) yet writes no separator, while the malformed-arity
`offset a b` writes the usage message and then the separator. -/
theorem help_completes_without_separator_cx :
    executeCommandTokens noResolve baseOptions ["help"] =
      Except.ok ⟨false, baseOptions, printHelp Option.none⟩ ∧
    (printHelp Option.none).count (Event.out "\n") = 0 ∧
    executeCommandTokens noResolve baseOptions ["offset", "a", "b"] =
      Except.ok ⟨false, baseOptions, [Event.out "Usage: offsets [funcId]\n", Event.out "\n"]⟩ ∧
    ([Event.out "Usage: offsets [funcId]\n", Event.out "\n"] : List Event).count
      (Event.out "\n") = 1 :=
  ⟨rfl, by decide, rfl, by decide⟩

/-- C6 (amended): a dispatched command writes exactly one blank-line
separator, as its last output, precisely on the fall-through paths
described by `writesSeparator`: all recognized well-formed commands
except `help` and `quit`, plus the `offset` bad-arity usage path;
parse-error paths, `printHelp` bad-arity paths, `help` and `quit`
write none. -/
theorem separator_iff_fall_through (resolve : Nat → Option Nat) (opts : DisassemblyOptions)
    (tokens : List String) (r : ExecResult)
    (h : executeCommandTokens resolve opts tokens = Except.ok r) :
    (writesSeparator tokens = true →
       r.events.getLast? = some (Event.out "\n") ∧
       r.events.count (Event.out "\n") = 1) ∧
    (writesSeparator tokens = false → r.events.count (Event.out "\n") = 0) := by
  have hfall := executeCommandCore_fall_eq resolve opts tokens
  have hfree := executeCommandCore_sepFree resolve opts tokens
  unfold executeCommandTokens at h
  cases hcore : executeCommandCore resolve opts tokens with
  | ret t o evs =>
    rw [hcore] at h hfall hfree
    cases h
    refine ⟨?_, ?_⟩
    · intro hw
      rw [← hfall] at hw
      simp [CoreResult.isFall] at hw
    · intro _
      simpa using List.count_eq_zero.mpr hfree
  | fall o evs =>
    rw [hcore] at h hfall hfree
    cases h
    refine ⟨?_, ?_⟩
    · intro _
      refine ⟨by simp, ?_⟩
      rw [List.count_append]
      simp [List.count_eq_zero.mpr hfree]
    · intro hw
      rw [← hfall] at hw
      simp [CoreResult.isFall] at hw
  | oob msg =>
    rw [hcore] at h
    cases h

/-- Witness for C6: the well-formed `io` command ends its output with
exactly one separator. -/
theorem separator_iff_fall_through_witness :
    ([Event.call ServiceCall.dumpIO, Event.out "\n"] : List Event).getLast? =
      some (Event.out "\n") ∧
    ([Event.call ServiceCall.dumpIO, Event.out "\n"] : List Event).count (Event.out "\n") = 1 :=
  (separator_iff_fall_through noResolve baseOptions ["io"]
    ⟨false, baseOptions, [Event.call ServiceCall.dumpIO, Event.out "\n"]⟩ rfl).1 rfl
